import Mathlib

/-!
Verification of the rocm-jax CI tooling: a shallow embedding of the
crash-detecting pytest orchestrator (`build/rocm/run_single_gpu.py`,
`build/rocm/run_multi_gpu.py`), of the MySQL result uploader
(`ci/upload_pytest_to_db.py`) and of the gdb log-to-trace converters
(`_my/gdb-sym.py`, `_my/gdb-sym2.py`), together with proofs of the
behavioural properties stated about them.

Strings are modelled as `List Char` where character-level behaviour
matters and as `String` elsewhere.  Wall-clock times and durations are
modelled as rationals.  Python's `unicodedata.category(c)[0] == "C"`
test is kept as an abstract boolean classifier `isC`; every theorem that
needs a fact about it (only `isC ' ' = false`) takes that fact as a
hypothesis, so the results hold for the real Unicode classifier.
-/

/- ## Generic helpers: Python string primitives -/

/-- Index of the first occurrence of `sep` as a contiguous sublist of `s`
(`str.find` for a non-empty separator), `none` when absent. -/
def findSub (sep : List Char) : List Char → Option Nat
  | [] => if sep.isPrefixOf ([] : List Char) then some 0 else none
  | c :: rest =>
    if sep.isPrefixOf (c :: rest) then some 0
    else (findSub sep rest).map (· + 1)

/-- Python's `sep in s` for strings. -/
def hasSub (sep s : List Char) : Bool :=
  (findSub sep s).isSome

/-- Python's `s.split(sep, maxsplit)` for a non-empty separator `sep`:
split at the leftmost occurrence, at most `maxsplit` times. -/
def pySplit (sep : List Char) (maxsplit : Nat) (s : List Char) :
    List (List Char) :=
  match maxsplit with
  | 0 => [s]
  | m + 1 =>
    match findSub sep s with
    | none => [s]
    | some i => s.take i :: pySplit sep m (s.drop (i + sep.length))

/-- The `"::"` separator used by pytest node IDs. -/
def sepCC : List Char := [':', ':']

/- ## `run_single_gpu.sanitize_for_json` (source lines 50-68) -/

/-- One character of `sanitize_for_json`: the Python conditional
`char if unicodedata.category(char)[0] != "C" or char in "\n\r\t" else " "`. -/
def jsonSanStep (isC : Char → Bool) (c : Char) : Char :=
  if isC c && !(c = '\n' || c = '\r' || c = '\t') then ' ' else c

/-- `run_single_gpu.sanitize_for_json`: `if not text: return text`, then
rebuild the string character by character through `jsonSanStep`. -/
def sanitize_for_json (isC : Char → Bool) (text : List Char) : List Char :=
  if text = [] then text
  else text.map (jsonSanStep isC)

/- ## `run_single_gpu.build_pytest_command` (source lines 173-220) -/

/-- The fixed head of the pytest command built by `build_pytest_command`
before the optional `-x`, the node IDs and the deselect pairs. -/
def pytestBaseCmd (json_log_file html_log_file : String) (reruns : Nat) :
    List String :=
  ["python3", "-m", "pytest", "--json-report",
   "--json-report-file=" ++ json_log_file, "--html=" ++ html_log_file,
   "--reruns", toString reruns, "-v"]

/-- `run_single_gpu.build_pytest_command`: base command, then `-x` when
`continue_on_fail` is false, then all test node IDs, then a
`["--deselect", t]` pair for each deselected test `t`. -/
def build_pytest_command (json_log_file html_log_file : String)
    (test_nodeids : List String) (continue_on_fail : Bool) (reruns : Nat)
    (deselect_tests : Option (List String)) : List String :=
  let ds := deselect_tests.getD []
  let cmd := pytestBaseCmd json_log_file html_log_file reruns
  let cmd := if !continue_on_fail then cmd ++ ["-x"] else cmd
  let cmd := cmd ++ test_nodeids
  cmd ++ (ds.map (fun t => ["--deselect", t])).flatten

/- ## `run_single_gpu.check_for_crash` (source lines 1163-1232) -/

/-- Parsed content of the `last_running` sentinel file.  `none` in
`start_time` stands for a missing `"start_time"` key (`KeyError`) or a
string `datetime.fromisoformat` rejects (`ValueError`); both are caught
by the `except` clause of `check_for_crash`. -/
structure CrashData where
  status : Option String
  start_time : Option ℚ
  nodeid : Option String
  test_name : Option String
  gpu_id : Option String
  pid : Option String

/-- State of the sentinel file on disk: absent, unreadable as a JSON
dict (`json.JSONDecodeError` or any other exception while reading), or
parsed. -/
inductive CrashFile
  | absent
  | invalid
  | valid (d : CrashData)

/-- The crash-info dict returned by `check_for_crash` on success. -/
structure CrashInfo where
  test_name : String
  test_class : String
  nodeid : String
  reason : String
  duration : ℚ
  gpu_id : String
  pid : String

/-- Class-name extraction of `check_for_crash` (source lines 1204-1210):
split the identifier on `"::"` and take `parts[1]` when there are at
least two parts, else `"UnknownClass"`. -/
def crashTestClass (ident : List Char) : List Char :=
  if hasSub sepCC ident then
    let parts := pySplit sepCC ident.length ident
    if 3 ≤ parts.length then parts.getD 1 []
    else if parts.length = 2 then parts.getD 1 []
    else "UnknownClass".data
  else "UnknownClass".data

/-- `run_single_gpu.check_for_crash`, parametrised by the sentinel file
state and the current wall-clock time `now` (seconds, as a rational).
Returns `some` crash info exactly on the code path that reaches the
final `return` of the Python function. -/
def check_for_crash (file : CrashFile) (now : ℚ) : Option CrashInfo :=
  match file with
  | .absent => none
  | .invalid => none
  | .valid d =>
    if d.status ≠ some "running" then none
    else
      match d.start_time with
      | none => none
      | some t =>
        let duration := now - t
        if duration < 1/10 then none
        else
          let test_identifier := d.nodeid.getD (d.test_name.getD "unknown_test")
          some { test_name := test_identifier
                 test_class := String.mk (crashTestClass test_identifier.data)
                 nodeid := d.nodeid.getD test_identifier
                 reason := "Test crashed (segfault, abort, or fatal error)"
                 duration := duration
                 gpu_id := d.gpu_id.getD "unknown"
                 pid := d.pid.getD "unknown" }

/- ## Helper lemmas -/

lemma digitChar_lt_ne_dash : ∀ m : Nat, m < 16 → Nat.digitChar m ≠ '-' := by
  decide

lemma toDigitsCore_ne_dash (fuel n : Nat) (ds : List Char)
    (hds : '-' ∉ ds) : '-' ∉ Nat.toDigitsCore 10 fuel n ds := by
  induction fuel generalizing n ds with
  | zero => simpa [Nat.toDigitsCore] using hds
  | succ fuel ih =>
    have hm : n % 10 < 16 := lt_of_lt_of_le (Nat.mod_lt _ (by norm_num)) (by norm_num)
    unfold Nat.toDigitsCore
    dsimp only
    split
    · intro hmem
      rcases List.mem_cons.mp hmem with h | h
      · exact digitChar_lt_ne_dash _ hm h.symm
      · exact hds h
    · refine ih _ _ ?_
      intro hmem
      rcases List.mem_cons.mp hmem with h | h
      · exact digitChar_lt_ne_dash _ hm h.symm
      · exact hds h

lemma natRepr_ne_dash_x (n : Nat) : Nat.repr n ≠ "-x" := by
  intro h
  have hd : '-' ∈ Nat.toDigits 10 n := by
    have h2 := congrArg String.data h
    simp only [Nat.repr, List.asString] at h2
    rw [Nat.toDigits] at h2 ⊢
    rw [h2]
    decide
  exact toDigitsCore_ne_dash (n + 1) n [] (by simp) hd

lemma jsonSanStep_idem (isC : Char → Bool) (c : Char) :
    jsonSanStep isC (jsonSanStep isC c) = jsonSanStep isC c := by
  by_cases h : (isC c && !(c = '\n' || c = '\r' || c = '\t')) = true
  · have h1 : jsonSanStep isC c = ' ' := by rw [jsonSanStep, if_pos h]
    rw [h1]
    simp [jsonSanStep]
  · have h1 : jsonSanStep isC c = c := by rw [jsonSanStep, if_neg h]
    rw [h1]
    exact h1

/- ## Claim C10 -/

/-- Claim C10: `sanitize_for_json` yields a string with no control
characters (by the classifier `isC`, with `isC ' ' = false`) other than
newline, carriage return and tab; it keeps every non-control character
in place, replaces every other control character by a space, preserves
the length, and is idempotent. -/
theorem sanitize_for_json_spec (isC : Char → Bool) (s : List Char)
    (hC : isC ' ' = false) :
    (sanitize_for_json isC s).length = s.length
    ∧ (∀ c ∈ sanitize_for_json isC s, isC c = true →
        c = '\n' ∨ c = '\r' ∨ c = '\t')
    ∧ (∀ (i : Nat) (c : Char), s[i]? = some c → isC c = false →
        (sanitize_for_json isC s)[i]? = some c)
    ∧ (∀ (i : Nat) (c : Char), s[i]? = some c → isC c = true →
        c ≠ '\n' → c ≠ '\r' → c ≠ '\t' →
        (sanitize_for_json isC s)[i]? = some ' ')
    ∧ sanitize_for_json isC (sanitize_for_json isC s) = sanitize_for_json isC s := by
  by_cases hs : s = []
  · subst hs
    simp [sanitize_for_json]
  · have hdef : sanitize_for_json isC s = s.map (jsonSanStep isC) := by
      rw [sanitize_for_json, if_neg hs]
    refine ⟨by rw [hdef]; exact List.length_map _ _, ?_, ?_, ?_, ?_⟩
    · intro c hc hisC
      rw [hdef] at hc
      rcases List.mem_map.mp hc with ⟨a, _, rfl⟩
      by_cases hcond : (isC a && !(a = '\n' || a = '\r' || a = '\t')) = true
      · have h1 : jsonSanStep isC a = ' ' := by rw [jsonSanStep, if_pos hcond]
        rw [h1, hC] at hisC
        cases hisC
      · have h1 : jsonSanStep isC a = a := by rw [jsonSanStep, if_neg hcond]
        rw [h1] at hisC ⊢
        cases hnrt : (decide (a = '\n') || decide (a = '\r') || decide (a = '\t')) with
        | true =>
          have := by simpa using hnrt
          tauto
        | false =>
          exact absurd (by rw [Bool.and_eq_true]
                           exact ⟨hisC, by rw [hnrt]; rfl⟩) hcond
    · intro i c hi hf
      rw [hdef, List.getElem?_map, hi]
      simp [jsonSanStep, hf]
    · intro i c hi ht hn hr htt
      rw [hdef, List.getElem?_map, hi]
      simp [jsonSanStep, ht, hn, hr, htt]
    · have hne : s.map (jsonSanStep isC) ≠ [] := by
        simpa [List.map_eq_nil_iff] using hs
      rw [hdef, sanitize_for_json, if_neg hne, List.map_map]
      exact List.map_congr_left (fun a _ => jsonSanStep_idem isC a)

/-- Witness for C10 at a concrete classifier and string. -/
theorem sanitize_for_json_spec_witness :
    ((fun c => c == Char.ofNat 0) ' ' = false)
    ∧ (sanitize_for_json (fun c => c == Char.ofNat 0)
        ['a', Char.ofNat 0]).length = (['a', Char.ofNat 0] : List Char).length :=
  ⟨by decide,
   (sanitize_for_json_spec (fun c => c == Char.ofNat 0)
     ['a', Char.ofNat 0] (by decide)).1⟩

/- ## Claim C1 -/

/-- Claim C1: `check_for_crash` returns a crash-info dict exactly when
the sentinel file exists, parses as a JSON dict whose `status` is
`"running"` and whose `start_time` parses, and the elapsed time since
`start_time` is at least 0.1 seconds; in every other case it returns
`none`. -/
theorem check_for_crash_spec (file : CrashFile) (now : ℚ) :
    (check_for_crash file now).isSome ↔
      ∃ d t, file = CrashFile.valid d ∧ d.status = some "running"
        ∧ d.start_time = some t ∧ 1/10 ≤ now - t := by
  cases file with
  | absent => simp [check_for_crash]
  | invalid => simp [check_for_crash]
  | valid d =>
    by_cases hst : d.status = some "running"
    · cases h : d.start_time with
      | none =>
        simp only [check_for_crash, h, hst]
        simp [h]
      | some t =>
        by_cases hd : now - t < 1/10
        · simp only [check_for_crash, hst, h]
          simp [hd, not_le.mpr hd, h, hst]
        · simp only [check_for_crash, hst, h]
          simp [hd, not_lt.mp hd, h, hst]
    · simp [check_for_crash, hst]

/- ## Claim C2 -/

lemma x_not_mem_base (jf hf : String) (reruns : Nat) :
    "-x" ∉ pytestBaseCmd jf hf reruns := by
  intro h
  simp only [pytestBaseCmd, List.mem_cons, List.not_mem_nil, or_false] at h
  rcases h with h | h | h | h | h | h | h | h | h
  · exact absurd h (by decide)
  · exact absurd h (by decide)
  · exact absurd h (by decide)
  · exact absurd h (by decide)
  · have hl := congrArg String.length h
    rw [String.length_append] at hl
    have h2 : ("-x" : String).length = 2 := by decide
    have h19 : ("--json-report-file=" : String).length = 19 := by decide
    omega
  · have hl := congrArg String.length h
    rw [String.length_append] at hl
    have h2 : ("-x" : String).length = 2 := by decide
    have h7 : ("--html=" : String).length = 7 := by decide
    omega
  · exact absurd h (by decide)
  · exact natRepr_ne_dash_x reruns h.symm
  · exact absurd h (by decide)

lemma x_not_mem_deselect (ds : List String) (hx2 : "-x" ∉ ds) :
    "-x" ∉ (ds.map (fun t => ["--deselect", t])).flatten := by
  intro h
  rcases List.mem_flatten.mp h with ⟨l, hl, hm⟩
  rcases List.mem_map.mp hl with ⟨t, ht, rfl⟩
  rcases List.mem_cons.mp hm with h1 | h1
  · exact absurd h1 (by decide)
  · rcases List.mem_cons.mp h1 with h2 | h2
    · exact hx2 (h2 ▸ ht)
    · exact List.not_mem_nil _ h2

/-- Claim C2: `build_pytest_command` emits the base command, then `-x`
exactly when `continue_on_fail` is false, then every test node ID, and
only then one `["--deselect", t]` pair per deselected test, so every
deselect pair sits after all node IDs. -/
theorem build_pytest_command_spec (jf hf : String) (nodeids : List String)
    (c : Bool) (reruns : Nat) (ds : List String)
    (hx1 : "-x" ∉ nodeids) (hx2 : "-x" ∉ ds) :
    build_pytest_command jf hf nodeids c reruns (some ds)
        = pytestBaseCmd jf hf reruns ++ (if c then [] else ["-x"]) ++ nodeids
          ++ (ds.map (fun t => ["--deselect", t])).flatten
    ∧ (∀ t ∈ ds, ∃ mid r,
        build_pytest_command jf hf nodeids c reruns (some ds)
          = (pytestBaseCmd jf hf reruns ++ (if c then [] else ["-x"]) ++ nodeids)
            ++ mid ++ ["--deselect", t] ++ r)
    ∧ ("-x" ∈ build_pytest_command jf hf nodeids c reruns (some ds) ↔ c = false) := by
  have heq : build_pytest_command jf hf nodeids c reruns (some ds)
      = pytestBaseCmd jf hf reruns ++ (if c then [] else ["-x"]) ++ nodeids
        ++ (ds.map (fun t => ["--deselect", t])).flatten := by
    cases c <;> simp [build_pytest_command, List.append_assoc]
  refine ⟨heq, ?_, ?_⟩
  · intro t ht
    rcases List.append_of_mem ht with ⟨s1, s2, rfl⟩
    refine ⟨(s1.map (fun t => ["--deselect", t])).flatten,
            (s2.map (fun t => ["--deselect", t])).flatten, ?_⟩
    rw [heq]
    simp [List.append_assoc]
  · rw [heq]
    constructor
    · intro hmem
      rcases List.mem_append.mp hmem with hmem | hmem
      · rcases List.mem_append.mp hmem with hmem | hmem
        · rcases List.mem_append.mp hmem with hmem | hmem
          · exact absurd hmem (x_not_mem_base jf hf reruns)
          · cases c
            · rfl
            · exact absurd hmem (by simp at hmem)
        · exact absurd hmem hx1
      · exact absurd hmem (x_not_mem_deselect ds hx2)
    · intro hc
      subst hc
      simp

/-- Witness for C2 at one concrete batch with one deselected test. -/
theorem build_pytest_command_spec_witness :
    ("-x" ∉ (["jax/tests/x_test.py::XTest::test_a"] : List String))
    ∧ ("-x" ∉ (["jax/tests/x_test.py::XTest::test_b"] : List String))
    ∧ ("-x" ∈ build_pytest_command "a.json" "a.html"
          ["jax/tests/x_test.py::XTest::test_a"] false 3
          (some ["jax/tests/x_test.py::XTest::test_b"]) ↔ false = false) :=
  ⟨by decide, by decide,
   (build_pytest_command_spec "a.json" "a.html"
      ["jax/tests/x_test.py::XTest::test_a"] false 3
      ["jax/tests/x_test.py::XTest::test_b"] (by decide) (by decide)).2.2⟩

/- ## Claim C3: GPU-token handling of `run_test` (lines 436-543, 1259-1268) -/

/-- Shared token pool plus the multiset of tokens currently held by
worker threads.  `run_parallel` hands the same `available_gpu_tokens`
list to every thread; all accesses happen under `GPU_LOCK`. -/
structure PoolState where
  pool : List Nat
  held : Multiset Nat

/-- Atomic transitions on the token pool, each performed inside a
`with GPU_LOCK:` block of `run_test`: `acquire` is
`target_gpu = gpu_tokens.pop()` (Python `pop` takes the last element),
`release` is the `gpu_tokens.append(target_gpu)` of the `finally`
block of the thread holding `t`. -/
inductive TokenStep : PoolState → PoolState → Prop
  | acquire (ps : List Nat) (t : Nat) (held : Multiset Nat) :
      TokenStep ⟨ps ++ [t], held⟩ ⟨ps, t ::ₘ held⟩
  | release (pool : List Nat) (t : Nat) (held : Multiset Nat) (h : t ∈ held) :
      TokenStep ⟨pool, held⟩ ⟨pool ++ [t], held.erase t⟩

lemma tokenStep_preserves (s s' : PoolState) (h : TokenStep s s') :
    (s'.pool : Multiset Nat) + s'.held = (s.pool : Multiset Nat) + s.held := by
  cases h with
  | acquire ps t held =>
    show (ps : Multiset Nat) + t ::ₘ held = ((ps ++ [t] : List Nat) : Multiset Nat) + held
    rw [show ((ps ++ [t] : List Nat) : Multiset Nat)
          = (ps : Multiset Nat) + ([t] : List Nat) from rfl]
    rw [add_assoc]
    congr 1
  | release pool t held hmem =>
    show ((pool ++ [t] : List Nat) : Multiset Nat) + held.erase t
          = (pool : Multiset Nat) + held
    rw [show ((pool ++ [t] : List Nat) : Multiset Nat)
          = (pool : Multiset Nat) + ([t] : List Nat) from rfl]
    rw [add_assoc]
    congr 1
    rw [show (([t] : List Nat) : Multiset Nat) = ({t} : Multiset Nat) from rfl]
    rw [Multiset.singleton_add, Multiset.cons_erase hmem]

lemma tokenReach_invariant (init : List Nat) (s : PoolState)
    (h : Relation.ReflTransGen TokenStep ⟨init, 0⟩ s) :
    (s.pool : Multiset Nat) + s.held = (init : Multiset Nat) := by
  induction h with
  | refl => simp
  | tail _ hstep ih => rw [tokenStep_preserves _ _ hstep, ih]

/-- How a single `run_test` call terminates, as seen by the token pool. -/
inductive RunTestOutcome
  | earlyReturn
  | popFailed
  | completed (bodyRaised : Bool)

/-- Effect of one `run_test` call on the shared `gpu_tokens` list:
return untouched when `LAST_CODE != 0` (the early `return` sits before
the `try`), raise untouched when `pop()` fails on an empty list, and
otherwise pop the last token and re-append it in the `finally` block
whether or not the body raised. -/
def run_test_tokens (last_code : Int) (gpu_tokens : List Nat)
    (bodyRaises : Bool) : List Nat × RunTestOutcome :=
  if last_code ≠ 0 then (gpu_tokens, .earlyReturn)
  else
    match gpu_tokens.getLast? with
    | none => (gpu_tokens, .popFailed)
    | some t => (gpu_tokens.dropLast ++ [t], .completed bodyRaises)

/-- Claim C3: after `run_test` returns, the token list holds exactly the
tokens it held before the call (whether or not the body raised), and in
every interleaving of acquire/release steps from an initial pool with no
duplicate tokens, pool plus held tokens form the initial multiset and
each token is in the pool or held by exactly one thread. -/
theorem run_test_token_discipline (last_code : Int) (gpu_tokens : List Nat)
    (bodyRaises : Bool) (init : List Nat) (s : PoolState)
    (hreach : Relation.ReflTransGen TokenStep ⟨init, 0⟩ s)
    (hnodup : init.Nodup) :
    (run_test_tokens last_code gpu_tokens bodyRaises).1 = gpu_tokens
    ∧ (s.pool : Multiset Nat) + s.held = (init : Multiset Nat)
    ∧ (∀ t : Nat, s.pool.count t + Multiset.count t s.held ≤ 1) := by
  refine ⟨?_, tokenReach_invariant init s hreach, ?_⟩
  · unfold run_test_tokens
    split
    · rfl
    · cases hlast : gpu_tokens.getLast? with
      | none => simp [hlast]
      | some t => simp [hlast, List.dropLast_append_getLast? t hlast]
  · intro t
    have hsum := tokenReach_invariant init s hreach
    have hcnt := congrArg (Multiset.count t) hsum
    rw [Multiset.count_add, Multiset.coe_count, Multiset.coe_count] at hcnt
    rw [hcnt]
    exact List.nodup_iff_count_le_one.mp hnodup t

/-- Witness for C3: pool `[0, 1]` after thread 0 acquired token `1`. -/
theorem run_test_token_discipline_witness :
    Relation.ReflTransGen TokenStep ⟨[0, 1], 0⟩ ⟨[0], ({1} : Multiset Nat)⟩
    ∧ ([0, 1] : List Nat).Nodup
    ∧ ((run_test_tokens 0 [0, 1] false).1 = [0, 1]
        ∧ (([0] : List Nat) : Multiset Nat) + ({1} : Multiset Nat)
            = (([0, 1] : List Nat) : Multiset Nat)
        ∧ (∀ t : Nat, ([0] : List Nat).count t
            + Multiset.count t ({1} : Multiset Nat) ≤ 1)) := by
  have hstep : TokenStep ⟨[0, 1], 0⟩ ⟨[0], ({1} : Multiset Nat)⟩ := by
    have := TokenStep.acquire [0] 1 (0 : Multiset Nat)
    simpa using this
  have hreach : Relation.ReflTransGen TokenStep ⟨[0, 1], 0⟩ ⟨[0], ({1} : Multiset Nat)⟩ :=
    Relation.ReflTransGen.single hstep
  have hnd : ([0, 1] : List Nat).Nodup := by decide
  exact ⟨hreach, hnd,
    run_test_token_discipline 0 [0, 1] false [0, 1] ⟨[0], ({1} : Multiset Nat)⟩ hreach hnd⟩

/- ## Claim C4: crash-recovery loop (run_single_gpu lines 465-517, run_multi_gpu lines 192-274) -/

/-- Result of one pytest batch invocation followed by the sentinel
check: the run completed and `check_for_crash` reported `crash`, or (in
`run_multi_gpu_test` only) `subprocess.run` raised
`TimeoutExpired`/`SubprocessError`/`OSError`, which breaks the loop. -/
inductive BatchOutcome
  | completed (crash : Option String)
  | raised

/-- The `while retry_count <= max_retries:` loop shared by `run_test`
and `run_multi_gpu_test`.  `oracle` maps the current deselect list to
the outcome of the pytest invocation run with it.  Returns the number of
pytest invocations together with the final `tests_to_skip` list.  The
function is total, so the loop terminates on every oracle. -/
def crash_loop (oracle : List String → BatchOutcome) (max_retries : Nat)
    (tests_to_skip : List String) (retry_count : Nat) : Nat × List String :=
  if _h : retry_count ≤ max_retries then
    match oracle tests_to_skip with
    | .raised => (1, tests_to_skip)
    | .completed none => (1, tests_to_skip)
    | .completed (some nodeid) =>
      if nodeid ∈ tests_to_skip then (1, tests_to_skip)
      else
        let skip' := tests_to_skip ++ [nodeid]
        if hn : retry_count + 1 > max_retries then (1, skip')
        else
          let rest := crash_loop oracle max_retries skip' (retry_count + 1)
          (rest.1 + 1, rest.2)
  else (0, tests_to_skip)
termination_by max_retries + 1 - retry_count
decreasing_by omega

lemma crash_loop_le (oracle : List String → BatchOutcome) (m : Nat) :
    ∀ d rc sk, m + 1 - rc ≤ d → (crash_loop oracle m sk rc).1 ≤ m + 1 - rc := by
  intro d
  induction d with
  | zero =>
    intro rc sk hd
    rw [crash_loop]
    have : ¬ rc ≤ m := by omega
    simp [this]
  | succ d ih =>
    intro rc sk hd
    rw [crash_loop]
    by_cases hrc : rc ≤ m
    · simp only [hrc, dif_pos]
      cases horacle : oracle sk with
      | raised => simp; omega
      | completed crash =>
        cases crash with
        | none => simp; omega
        | some nodeid =>
          by_cases hmem : nodeid ∈ sk
          · simp [hmem]; omega
          · simp only [hmem, if_false]
            by_cases hn : rc + 1 > m
            · simp [hn]; omega
            · simp only [hn, dif_neg, not_false_iff]
              have hrec := ih (rc + 1) (sk ++ [nodeid]) (by omega)
              omega
    · simp [hrc]

lemma crash_loop_skip (oracle : List String → BatchOutcome) (m : Nat) :
    ∀ d rc sk, m + 1 - rc ≤ d →
      ∃ ext, (crash_loop oracle m sk rc).2 = sk ++ ext
        ∧ (sk.Nodup → (crash_loop oracle m sk rc).2.Nodup) := by
  intro d
  induction d with
  | zero =>
    intro rc sk hd
    rw [crash_loop]
    have hrc : ¬ rc ≤ m := by omega
    simp [hrc]
  | succ d ih =>
    intro rc sk hd
    rw [crash_loop]
    by_cases hrc : rc ≤ m
    · simp only [hrc, dif_pos]
      cases horacle : oracle sk with
      | raised => simp
      | completed crash =>
        cases crash with
        | none => simp
        | some nodeid =>
          by_cases hmem : nodeid ∈ sk
          · simp [hmem]
          · simp only [hmem, if_false]
            have hnd : sk.Nodup → (sk ++ [nodeid]).Nodup := by
              intro hs
              rw [List.nodup_append]
              exact ⟨hs, List.nodup_singleton _, by simpa using hmem⟩
            by_cases hn : rc + 1 > m
            · simp only [hn, dif_pos]
              exact ⟨[nodeid], rfl, fun hs => hnd hs⟩
            · simp only [hn, dif_neg, not_false_iff]
              rcases ih (rc + 1) (sk ++ [nodeid]) (by omega) with ⟨ext, hext, hnodup⟩
              refine ⟨[nodeid] ++ ext, ?_, fun hs => hnodup (hnd hs)⟩
              rw [← List.append_assoc]
              exact hext
    · simp [hrc]

/-- Claim C4: the crash-recovery loop of `run_test` and
`run_multi_gpu_test`, started with `max_retries = len(tests_list)`,
empty `tests_to_skip` and `retry_count = 0`, terminates (it is a total
function) after at most `len(tests_list) + 1` pytest invocations, and
the final deselect list never holds the same crashed node ID twice. -/
theorem crash_loop_spec (oracle : List String → BatchOutcome)
    (tests_list : List String) :
    (crash_loop oracle tests_list.length [] 0).1 ≤ tests_list.length + 1
    ∧ (crash_loop oracle tests_list.length [] 0).2.Nodup := by
  constructor
  · have := crash_loop_le oracle tests_list.length (tests_list.length + 1) 0 [] (by omega)
    omega
  · rcases crash_loop_skip oracle tests_list.length (tests_list.length + 1) 0 []
      (by omega) with ⟨ext, _, hnodup⟩
    exact hnodup (List.nodup_nil)

/- ## Claim C6: LAST_CODE (source lines 45, 443-448, 484, 1387) -/

/-- Effect of one `run_test` call on the global `LAST_CODE`: the
function declares `global LAST_CODE`, reads it to decide the early
return, binds the result tuple of every `run_shell_command` call to
discarded placeholders (`_, _, _ = run_shell_command(...)`, line 484)
and never assigns `LAST_CODE`. -/
def run_test_last_code (last_code : Int) (subprocess_codes : List Int) : Int :=
  if last_code ≠ 0 then last_code
  else subprocess_codes.foldl (fun acc _rc => acc) last_code

/-- Exit code of `run_single_gpu.main`: `LAST_CODE` starts at `0`
(line 45), the `run_test` calls thread it through unchanged, and `main`
ends with `sys.exit(LAST_CODE)` (line 1387).  `module_codes` lists, per
test module, the return codes of the pytest subprocesses run for it. -/
def run_single_gpu_exit_code (module_codes : List (List Int)) : Int :=
  module_codes.foldl run_test_last_code 0

lemma run_test_last_code_zero (codes : List Int) :
    run_test_last_code 0 codes = 0 := by
  unfold run_test_last_code
  simp only [ne_eq, not_true_eq_false, if_false, ite_false]
  induction codes with
  | nil => rfl
  | cons c rest ih => simp [ih]

/-- Claim C6 fails on the code: a pytest subprocess exiting `1` still
leaves the runner's exit code at `0`, because `run_test` discards every
subprocess return code and `LAST_CODE` is never assigned after its
initialisation to `0`; the orchestrator's exit code is `0` for every
pattern of subprocess return codes. -/
theorem last_code_never_propagates :
    (1 : Int) ≠ 0 ∧ run_single_gpu_exit_code [[1]] = 0
    ∧ ∀ module_codes, run_single_gpu_exit_code module_codes = 0 := by
  refine ⟨by decide, by decide, ?_⟩
  intro mc
  unfold run_single_gpu_exit_code
  induction mc with
  | nil => rfl
  | cons c rest ih =>
    rw [List.foldl_cons, run_test_last_code_zero]
    exact ih

/- ## Claim C5: append_abort_to_json (source lines 547-694) -/

/-- One entry of the `tests` array of a pytest JSON report, restricted
to the keys `append_abort_to_json` reads or writes. -/
structure TestRec where
  nodeid : String
  lineno : Nat
  outcome : String
  keywords : List String
  setup_outcome : String
  call_duration : ℚ
  call_outcome : String
  call_longrepr : String
  teardown_outcome : String

/-- The `summary` object of a pytest JSON report; `none` in a field is a
missing key (the code reads counters with `summary.get(key, 0)` and
touches `unskipped_total` only when present). -/
structure ReportSummary where
  passed : Option Nat
  failed : Option Nat
  total : Option Nat
  collected : Option Nat
  unskipped_total : Option Nat

/-- A pytest JSON report, restricted to the keys the function touches
(`created`, `root`, `environment` and `collectors` are fixed
boilerplate irrelevant to the claim). -/
structure Report where
  tests : Option (List TestRec)
  summary : Option ReportSummary
  exitcode : Int

/-- The crash-info dict handed to `append_abort_to_json`; optional
fields are those the code reads with `.get(key, default)`. -/
structure AbortInfo where
  test_name : String
  test_class : Option String
  reason : Option String
  abort_time : Option String
  gpu_id : Option String
  duration : Option ℚ

/-- Character step of the keep-only-newline sanitiser inside
`append_abort_to_json` (source lines 570-573). -/
def abortSanStep (isC : Char → Bool) (c : Char) : Char :=
  if isC c && !(c = '\n') then ' ' else c

/-- Cleaning of the abort reason: default it, then (when non-empty)
replace every control character other than `\n` by a space. -/
def abortReasonClean (isC : Char → Bool) (reason : Option String) : String :=
  let raw := reason.getD "Unknown abort reason"
  if raw = "" then raw
  else String.mk (raw.data.map (abortSanStep isC))

/-- Node-ID normalisation of `append_abort_to_json` (source lines
554-563): keep full node IDs, prefix everything else with
`tests/<testfile>.py::`. -/
def abortTestNodeid (testfile test_identifier : String) : String :=
  if hasSub sepCC test_identifier.data && test_identifier.startsWith "tests/" then
    test_identifier
  else if hasSub sepCC test_identifier.data then
    "tests/" ++ testfile ++ ".py::" ++ test_identifier
  else
    "tests/" ++ testfile ++ ".py::" ++ test_identifier

/-- The synthetic `abort_test` record (source lines 575-594). -/
def mkAbortTest (isC : Char → Bool) (testfile : String) (info : AbortInfo) : TestRec :=
  let test_class := info.test_class.getD "UnknownClass"
  let clean := abortReasonClean isC info.reason
  let longrepr := "Test aborted: " ++ clean
      ++ "\nTest Class: " ++ test_class
      ++ "\nAbort detected at: " ++ info.abort_time.getD ""
      ++ "\nGPU ID: " ++ info.gpu_id.getD "unknown"
  { nodeid := abortTestNodeid testfile info.test_name
    lineno := 1
    outcome := "failed"
    keywords := [info.test_name, testfile, "abort", test_class, ""]
    setup_outcome := "passed"
    call_duration := info.duration.getD 0
    call_outcome := "failed"
    call_longrepr := longrepr
    teardown_outcome := "skipped" }

/-- `run_single_gpu.append_abort_to_json` as a function from the
existing report (`none` when the JSON file does not exist) to the
report written back. -/
def append_abort_to_json (isC : Char → Bool) (testfile : String)
    (abort_info : AbortInfo) (existing : Option Report) : Report :=
  let abort_test := mkAbortTest isC testfile abort_info
  match existing with
  | some r =>
    { tests := some ((r.tests.getD []) ++ [abort_test])
      summary := r.summary.map (fun s =>
        { s with failed := some (s.failed.getD 0 + 1)
                 total := some (s.total.getD 0 + 1)
                 collected := some (s.collected.getD 0 + 1)
                 unskipped_total := s.unskipped_total.map (· + 1) })
      exitcode := 1 }
  | none =>
    { tests := some [abort_test]
      summary := some { passed := some 0, failed := some 1, total := some 1,
                        collected := some 1, unskipped_total := some 1 }
      exitcode := 1 }

/-- Claim C5: `append_abort_to_json` adds exactly one synthetic test
with outcome `"failed"` and a longrepr beginning `"Test aborted: "`;
on an existing report it appends the record to the tests array, bumps
`failed`, `total` and `collected` by exactly 1 (leaving `passed`
alone) and sets `exitcode` to 1; on a missing report it creates one
containing exactly that test with summary
`passed=0, failed=1, total=1, collected=1`. -/
theorem append_abort_to_json_spec (isC : Char → Bool) (testfile : String)
    (info : AbortInfo) (r : Report) (s : ReportSummary)
    (hs : r.summary = some s) :
    (mkAbortTest isC testfile info).outcome = "failed"
    ∧ (∃ rest, (mkAbortTest isC testfile info).call_longrepr
        = "Test aborted: " ++ rest)
    ∧ (append_abort_to_json isC testfile info (some r)).tests
        = some (r.tests.getD [] ++ [mkAbortTest isC testfile info])
    ∧ ((append_abort_to_json isC testfile info (some r)).tests.getD []).length
        = (r.tests.getD []).length + 1
    ∧ (∃ s', (append_abort_to_json isC testfile info (some r)).summary = some s'
        ∧ s'.failed = some (s.failed.getD 0 + 1)
        ∧ s'.total = some (s.total.getD 0 + 1)
        ∧ s'.collected = some (s.collected.getD 0 + 1)
        ∧ s'.passed = s.passed)
    ∧ (append_abort_to_json isC testfile info (some r)).exitcode = 1
    ∧ (append_abort_to_json isC testfile info none).tests
        = some [mkAbortTest isC testfile info]
    ∧ (append_abort_to_json isC testfile info none).summary
        = some { passed := some 0, failed := some 1, total := some 1,
                 collected := some 1, unskipped_total := some 1 }
    ∧ (append_abort_to_json isC testfile info none).exitcode = 1 := by
  refine ⟨rfl, ⟨_, rfl⟩, rfl, ?_, ?_, rfl, rfl, rfl, rfl⟩
  · simp [append_abort_to_json]
  · have hsum : (append_abort_to_json isC testfile info (some r)).summary
        = some { s with failed := some (s.failed.getD 0 + 1)
                        total := some (s.total.getD 0 + 1)
                        collected := some (s.collected.getD 0 + 1)
                        unskipped_total := s.unskipped_total.map (fun n => n + 1) } := by
      simp [append_abort_to_json, hs]
    exact ⟨_, hsum, rfl, rfl, rfl, rfl⟩

/-- Concrete existing report used by the C5 witness. -/
def abortWitnessSummary : ReportSummary :=
  { passed := some 2, failed := some 0, total := some 2,
    collected := some 2, unskipped_total := none }

/-- Concrete existing report used by the C5 witness. -/
def abortWitnessReport : Report :=
  { tests := some [], summary := some abortWitnessSummary, exitcode := 0 }

/-- Concrete crash info used by the C5 witness. -/
def abortWitnessInfo : AbortInfo :=
  { test_name := "ImageTest::testFoo", test_class := some "ImageTest",
    reason := some "segfault", abort_time := some "2025-01-01T00:00:00",
    gpu_id := some "3", duration := some 12 }

/-- Witness for C5 on a concrete report that has a summary. -/
theorem append_abort_to_json_spec_witness :
    abortWitnessReport.summary = some abortWitnessSummary
    ∧ (append_abort_to_json (fun _ => false) "image_test" abortWitnessInfo
        (some abortWitnessReport)).exitcode = 1 :=
  ⟨rfl, (append_abort_to_json_spec (fun _ => false) "image_test" abortWitnessInfo
      abortWitnessReport abortWitnessSummary rfl).2.2.2.2.2.1⟩

/- ## Claim C7: upload_pytest_results (upload_pytest_to_db lines 389-494) -/

/-- Kind of exception raised by a DB operation: `mysql.connector.Error`
or anything else. -/
inductive DbErr | mysql | other
deriving DecidableEq

/-- Outcomes of the four DB operations executed in order inside the
`try` block of `upload_pytest_results`: `insert_run`,
`sync_tests_and_get_ids`, `batch_insert_results`, `conn.commit()`.
`none` means the operation succeeds. -/
structure DbOps where
  insert_run : Option DbErr
  sync_tests : Option DbErr
  batch_insert : Option DbErr
  commit : Option DbErr

/-- First exception raised in the `try` block, `none` when every
operation (including the final `conn.commit()`) succeeds. -/
def tryBodyResult (ops : DbOps) : Option DbErr :=
  match ops.insert_run with
  | some e => some e
  | none =>
    match ops.sync_tests with
    | some e => some e
    | none =>
      match ops.batch_insert with
      | some e => some e
      | none => ops.commit

/-- Observable events of `upload_pytest_results`, in program order. -/
inductive UploadEvent
  | commitDone
  | rollback
  | closeConn
  | sysExit (code : Nat)
  | reraise
deriving DecidableEq

/-- `upload_pytest_results` control flow: on success the commit
completes and the `finally` closes the connection; on `MySQLError` the
handler rolls back and raises `SystemExit(10)`, which passes through
the `finally` and terminates the process with code 10; on any other
exception the handler rolls back and re-raises. -/
def upload_pytest_results (ops : DbOps) : List UploadEvent :=
  match tryBodyResult ops with
  | none => [.commitDone, .closeConn]
  | some .mysql => [.rollback, .closeConn, .sysExit 10]
  | some .other => [.rollback, .closeConn, .reraise]

/-- Claim C7: whenever a MySQL error is raised during the upload, the
run is rolled back before the process terminates with the fixed exit
code 10, and the commit happens only on the fully successful path. -/
theorem upload_pytest_results_spec (ops : DbOps) :
    (tryBodyResult ops = some .mysql →
      upload_pytest_results ops
        = [.rollback, .closeConn, .sysExit 10])
    ∧ (UploadEvent.commitDone ∈ upload_pytest_results ops ↔ tryBodyResult ops = none)
    ∧ (tryBodyResult ops = none ↔ ops.insert_run = none ∧ ops.sync_tests = none
        ∧ ops.batch_insert = none ∧ ops.commit = none) := by
  refine ⟨?_, ?_, ?_⟩
  · intro h
    unfold upload_pytest_results
    rw [h]
  · unfold upload_pytest_results
    cases h : tryBodyResult ops with
    | none => simp
    | some e => cases e <;> simp
  · unfold tryBodyResult
    cases h1 : ops.insert_run <;> cases h2 : ops.sync_tests <;>
      cases h3 : ops.batch_insert <;> simp [h1, h2, h3]

/-- Upload run whose `conn.commit()` raises a MySQL error, used by the
C7 witness. -/
def uploadWitnessOps : DbOps :=
  { insert_run := none, sync_tests := none, batch_insert := none,
    commit := some .mysql }

/-- Witness for C7: a commit-time MySQL error rolls back and exits 10. -/
theorem upload_pytest_results_spec_witness :
    tryBodyResult uploadWitnessOps = some .mysql
    ∧ upload_pytest_results uploadWitnessOps
      = [.rollback, .closeConn, .sysExit 10] :=
  ⟨rfl, (upload_pytest_results_spec uploadWitnessOps).1 rfl⟩

/- ## Claim C9: nodeid_parts (upload_pytest_to_db lines 55-66) -/

lemma findSub_none_of (sep s : List Char) (h : hasSub sep s = false) :
    findSub sep s = none := by
  unfold hasSub at h
  exact Option.not_isSome_iff_eq_none.mp (by simp [h])

lemma pySplit_no_sep (sep : List Char) (m : Nat) (s : List Char)
    (h : hasSub sep s = false) : pySplit sep m s = [s] := by
  cases m with
  | zero => rfl
  | succ m => unfold pySplit; rw [findSub_none_of sep s h]

lemma hasSub_tail (sep : List Char) (a : Char) (f' : List Char)
    (h : hasSub sep (a :: f') = false) : hasSub sep f' = false := by
  unfold hasSub at h ⊢
  rw [findSub] at h
  by_cases hp : sep.isPrefixOf (a :: f') = true
  · rw [if_pos hp] at h
    simp at h
  · rw [if_neg hp] at h
    cases hf : findSub sep f' with
    | none => simp [hf]
    | some i => rw [hf] at h; simp at h

lemma isPrefixOf_cc (rest : List Char) :
    sepCC.isPrefixOf (':' :: ':' :: rest) = true := by
  simp [sepCC, List.isPrefixOf]

/-- The first occurrence of `"::"` in `f ++ "::" ++ rest` sits exactly
at the end of `f` when `f` neither contains `"::"` nor ends in `':'`. -/
lemma findSub_boundary (f rest : List Char)
    (h1 : hasSub sepCC f = false) (h2 : f.getLast? ≠ some ':') :
    findSub sepCC (f ++ ':' :: ':' :: rest) = some f.length := by
  induction f with
  | nil =>
    rw [List.nil_append, findSub, if_pos (isPrefixOf_cc rest)]
    rfl
  | cons a f' ih =>
    have hpre : sepCC.isPrefixOf (a :: (f' ++ ':' :: ':' :: rest)) = false := by
      by_cases ha : a = ':'
      · subst ha
        cases f' with
        | nil =>
          exact absurd (show ([':'] : List Char).getLast? = some ':' from rfl) h2
        | cons b f'' =>
          by_cases hb : b = ':'
          · subst hb
            have : hasSub sepCC (':' :: ':' :: f'') = true := by
              unfold hasSub
              rw [findSub, if_pos (isPrefixOf_cc f'')]
              rfl
            rw [this] at h1
            cases h1
          · have hbb : (':' == b) = false := by
              rw [beq_eq_false_iff_ne]
              exact fun h => hb h.symm
            simp [sepCC, List.isPrefixOf, hbb]
      · have haa : (':' == a) = false := by
          rw [beq_eq_false_iff_ne]
          exact fun h => ha h.symm
        simp [sepCC, List.isPrefixOf, haa]
    rw [List.cons_append, findSub, if_neg (by simp [hpre])]
    cases f' with
    | nil =>
      rw [List.nil_append, findSub, if_pos (isPrefixOf_cc rest)]
      rfl
    | cons b f'' =>
      have h1' : hasSub sepCC (b :: f'') = false := hasSub_tail sepCC a _ h1
      have h2' : (b :: f'').getLast? ≠ some ':' := by
        rwa [List.getLast?_cons_cons] at h2
      rw [ih h1' h2']
      rfl

lemma take_drop_boundary (f rest : List Char) :
    (f ++ ':' :: ':' :: rest).take f.length = f
    ∧ (f ++ ':' :: ':' :: rest).drop (f.length + 2) = rest := by
  constructor
  · exact List.take_left f (':' :: ':' :: rest)
  · have hassoc : f ++ ':' :: ':' :: rest = (f ++ [':', ':']) ++ rest := by simp
    have hlen : (f ++ [':', ':']).length = f.length + 2 := by simp
    rw [hassoc, ← hlen]
    exact List.drop_left _ _

lemma pySplit2_two (f t : List Char) (h1 : hasSub sepCC f = false)
    (h2 : f.getLast? ≠ some ':') (h3 : hasSub sepCC t = false) :
    pySplit sepCC 2 (f ++ ':' :: ':' :: t) = [f, t] := by
  show pySplit sepCC (1 + 1) _ = _
  unfold pySplit
  rw [findSub_boundary f t h1 h2]
  dsimp only
  rw [(take_drop_boundary f t).1]
  rw [show f.length + sepCC.length = f.length + 2 from rfl]
  rw [(take_drop_boundary f t).2]
  rw [pySplit_no_sep sepCC 1 t h3]

lemma pySplit2_three (f c t : List Char) (h1 : hasSub sepCC f = false)
    (h2 : f.getLast? ≠ some ':') (h3 : hasSub sepCC c = false)
    (h4 : c.getLast? ≠ some ':') :
    pySplit sepCC 2 (f ++ ':' :: ':' :: (c ++ ':' :: ':' :: t)) = [f, c, t] := by
  show pySplit sepCC (1 + 1) _ = _
  unfold pySplit
  rw [findSub_boundary f _ h1 h2]
  dsimp only
  rw [(take_drop_boundary f _).1]
  rw [show f.length + sepCC.length = f.length + 2 from rfl]
  rw [(take_drop_boundary f _).2]
  unfold pySplit
  rw [findSub_boundary c t h3 h4]
  dsimp only
  rw [(take_drop_boundary c t).1]
  rw [show c.length + sepCC.length = c.length + 2 from rfl]
  rw [(take_drop_boundary c t).2]
  rfl

lemma pySplit2_shape (s : List Char) (i : Nat) (hi : findSub sepCC s = some i) :
    (∃ a b, pySplit sepCC 2 s = [a, b]) ∨ (∃ a b c, pySplit sepCC 2 s = [a, b, c]) := by
  show (∃ a b, pySplit sepCC (1 + 1) s = [a, b]) ∨ _
  unfold pySplit
  rw [hi]
  dsimp only
  cases hj : findSub sepCC (List.drop (i + sepCC.length) s) with
  | none =>
    left
    have hone : pySplit sepCC 1 (List.drop (i + sepCC.length) s)
        = [List.drop (i + sepCC.length) s] := by
      unfold pySplit
      rw [hj]
    rw [hone]
    exact ⟨_, _, rfl⟩
  | some j =>
    right
    have hone : pySplit sepCC 1 (List.drop (i + sepCC.length) s)
        = [List.take j (List.drop (i + sepCC.length) s),
           List.drop (j + sepCC.length) (List.drop (i + sepCC.length) s)] := by
      unfold pySplit
      rw [hj]
      rfl
    rw [hone]
    exact ⟨_, _, _, rfl⟩

/-- `upload_pytest_to_db.nodeid_parts`: split on `"::"` with
`maxsplit=2`; `parts[0]` then `parts[1]`/`parts[2]` indexing, where
`.error ()` is the `IndexError` Python raises on an out-of-range
index. -/
def nodeid_parts (nodeid : List Char) :
    Except Unit (List Char × List Char × List Char) :=
  let parts := pySplit sepCC 2 nodeid
  match parts[0]? with
  | none => .error ()
  | some f =>
    if parts.length = 2 then
      match parts[1]? with
      | none => .error ()
      | some t => .ok (f, [], t)
    else
      match parts[1]?, parts[2]? with
      | some c, some t => .ok (f, c, t)
      | _, _ => .error ()

/-- Claim C9: `nodeid_parts` raises `IndexError` exactly on node IDs
with no `"::"`; it returns a value on every node ID containing `"::"`,
with `(file, "", test)` for `file::test` and `(file, Class, test)` for
`file::Class::test` (components free of `"::"` and not ending in `':'`,
so the separators are unambiguous). -/
theorem nodeid_parts_spec :
    (∀ s : List Char, hasSub sepCC s = false → nodeid_parts s = .error ())
    ∧ (∀ s : List Char, hasSub sepCC s = true →
        ∃ v, nodeid_parts s = .ok v)
    ∧ (∀ f t : List Char, hasSub sepCC f = false → f.getLast? ≠ some ':' →
        hasSub sepCC t = false →
        nodeid_parts (f ++ ':' :: ':' :: t) = .ok (f, [], t))
    ∧ (∀ f c t : List Char, hasSub sepCC f = false → f.getLast? ≠ some ':' →
        hasSub sepCC c = false → c.getLast? ≠ some ':' →
        nodeid_parts (f ++ ':' :: ':' :: (c ++ ':' :: ':' :: t)) = .ok (f, c, t)) := by
  refine ⟨?_, ?_, ?_, ?_⟩
  · intro s h
    unfold nodeid_parts
    rw [pySplit_no_sep sepCC 2 s h]
    rfl
  · intro s h
    have hfind : ∃ i, findSub sepCC s = some i := by
      unfold hasSub at h
      cases hf : findSub sepCC s with
      | none => rw [hf] at h; cases h
      | some i => exact ⟨i, rfl⟩
    rcases hfind with ⟨i, hi⟩
    rcases pySplit2_shape s i hi with ⟨a, b, hs2⟩ | ⟨a, b, c, hs2⟩
    · exact ⟨(a, [], b), by simp [nodeid_parts, hs2]⟩
    · exact ⟨(a, b, c), by simp [nodeid_parts, hs2]⟩
  · intro f t h1 h2 h3
    unfold nodeid_parts
    rw [pySplit2_two f t h1 h2 h3]
    rfl
  · intro f c t h1 h2 h3 h4
    unfold nodeid_parts
    rw [pySplit2_three f c t h1 h2 h3 h4]
    rfl

/-- Witness for C9: a node ID with no `"::"` raises, a two-part and a
three-part node ID return their components. -/
theorem nodeid_parts_spec_witness :
    (hasSub sepCC "abc".data = false
      ∧ nodeid_parts "abc".data = .error ())
    ∧ (nodeid_parts ("f.py".data ++ ':' :: ':' :: "test_a".data)
        = .ok ("f.py".data, [], "test_a".data)) :=
  ⟨⟨by decide, nodeid_parts_spec.1 "abc".data (by decide)⟩,
   nodeid_parts_spec.2.2.1 "f.py".data "test_a".data
     (by decide) (by decide) (by decide)⟩

/- ## Claim C8: log parsers of gdb-sym.py (parse_log) and gdb-sym2.py (parseLog) -/

/-- Python's `\s` over the ASCII range (the log lines at stake are
ASCII). -/
def pyIsSpace (c : Char) : Bool :=
  c = ' ' || c = '\t' || c = '\n' || c = '\r' || c = '\x0b' || c = '\x0c'

/-- Character class `\d`. -/
def isDigitCh (c : Char) : Bool := '0' ≤ c && c ≤ '9'

/-- Character class `[0-9a-fA-F]`. -/
def isHexCh (c : Char) : Bool :=
  ('0' ≤ c && c ≤ '9') || ('a' ≤ c && c ≤ 'f') || ('A' ≤ c && c ≤ 'F')

/-- Character class `[A-Z]`. -/
def isUpperCh (c : Char) : Bool := 'A' ≤ c && c ≤ 'Z'

/-- Character class `[a-z]`. -/
def isLowerCh (c : Char) : Bool := 'a' ≤ c && c ≤ 'z'

/-- Greedy `\s*`. -/
def wsStar (s : List Char) : List Char := s.dropWhile pyIsSpace

/-- Greedy `p+`: one mandatory character then maximal munch.  For every
pattern below the character class is disjoint from the class that may
follow it, so greedy matching without backtracking is equivalent to the
regex. -/
def matchPlus (p : Char → Bool) (s : List Char) : Option (List Char) :=
  match s with
  | [] => none
  | c :: rest => if p c then some (rest.dropWhile p) else none

/-- A single literal character. -/
def matchCh (ch : Char) (s : List Char) : Option (List Char) :=
  match s with
  | [] => none
  | c :: rest => if c = ch then some rest else none

/-- The group `0x[0-9a-fA-F]+`. -/
def matchHexLit (s : List Char) : Option (List Char) :=
  ((matchCh '0' s).bind (matchCh 'x')).bind (matchPlus isHexCh)

/-- `gdb-sym.r_entry`:
`^\s*(\d+),\s*(0x[0-9a-fA-F]+),\s*(\d+),\s*(\d+)` via `re.match`. -/
def rEntryMatch1 (line : List Char) : Bool :=
  ((matchPlus isDigitCh (wsStar line)).bind (matchCh ',')
    |>.map wsStar |>.bind matchHexLit
    |>.bind (matchCh ',') |>.map wsStar |>.bind (matchPlus isDigitCh)
    |>.bind (matchCh ',') |>.map wsStar |>.bind (matchPlus isDigitCh)).isSome

/-- `gdb-sym.r_exit`:
`^\s*\>(\d+),\s*(0x..+),\s*(0x..+),\s*(\d+),\s*(\d+),\s*(\d+)`. -/
def rExitMatch1 (line : List Char) : Bool :=
  ((matchCh '>' (wsStar line)).bind (matchPlus isDigitCh)
    |>.bind (matchCh ',') |>.map wsStar |>.bind matchHexLit
    |>.bind (matchCh ',') |>.map wsStar |>.bind matchHexLit
    |>.bind (matchCh ',') |>.map wsStar |>.bind (matchPlus isDigitCh)
    |>.bind (matchCh ',') |>.map wsStar |>.bind (matchPlus isDigitCh)
    |>.bind (matchCh ',') |>.map wsStar |>.bind (matchPlus isDigitCh)).isSome

/-- `gdb-sym2.r_entry_common`:
`^\s*([A-Z]+)\s+([0-9a-fA-F]+)\s*,\s*([0-9a-fA-F]+)\s*`. -/
def rEntryCommonMatch (line : List Char) : Bool :=
  ((matchPlus isUpperCh (wsStar line)).bind (matchPlus pyIsSpace)
    |>.bind (matchPlus isHexCh) |>.map wsStar |>.bind (matchCh ',')
    |>.map wsStar |>.bind (matchPlus isHexCh)).isSome

/-- `gdb-sym2.r_exit_common`:
`^\s*([a-z]+)\s+([0-9a-fA-F]+)\s*,\s*([0-9a-fA-F]+)\s*`. -/
def rExitCommonMatch (line : List Char) : Bool :=
  ((matchPlus isLowerCh (wsStar line)).bind (matchPlus pyIsSpace)
    |>.bind (matchPlus isHexCh) |>.map wsStar |>.bind (matchCh ',')
    |>.map wsStar |>.bind (matchPlus isHexCh)).isSome

/-- What a loop iteration of either parser does with one line. -/
inductive LineClass
  | skip | entry | exitMark | err
deriving DecidableEq

/-- Line dispatch of `gdb-sym.parse_log` (source lines 44-105): entry
match, else exit match, else `elif line:` raise (never reached with a
falsy `line`, which only the empty string is), else fall through. -/
def classifyLine1 (line : List Char) : LineClass :=
  if rEntryMatch1 line then .entry
  else if rExitMatch1 line then .exitMark
  else if line ≠ [] then .err
  else .skip

/-- Line dispatch of `gdb-sym2.parseLog` (source lines 249-397):
`if not line.strip(): continue`, then entry match, else exit match,
else raise. -/
def classifyLine2 (line : List Char) : LineClass :=
  if line.all pyIsSpace then .skip
  else if rEntryCommonMatch line then .entry
  else if rExitCommonMatch line then .exitMark
  else .err

def pyFileLinesAux (acc : List Char) : List Char → List (List Char)
  | [] => if acc = [] then [] else [acc]
  | c :: rest =>
    if c = '\n' then (acc ++ ['\n']) :: pyFileLinesAux [] rest
    else pyFileLinesAux (acc ++ [c]) rest

/-- Python's file-line iteration (`for line in file`): split after every
`'\n'` keeping the terminator on the line, a final unterminated chunk
forming the last line.  No yielded line is the empty string. -/
def pyFileLines (content : List Char) : List (List Char) :=
  pyFileLinesAux [] content

lemma pyFileLinesAux_ne_nil (content : List Char) :
    ∀ acc l, l ∈ pyFileLinesAux acc content → l ≠ [] := by
  induction content with
  | nil =>
    intro acc l hl
    unfold pyFileLinesAux at hl
    by_cases ha : acc = []
    · simp [ha] at hl
    · rw [if_neg ha] at hl
      rcases List.mem_singleton.mp hl with rfl
      exact ha
  | cons c rest ih =>
    intro acc l hl
    unfold pyFileLinesAux at hl
    by_cases hc : c = '\n'
    · rw [if_pos hc] at hl
      rcases List.mem_cons.mp hl with rfl | hl
      · simp
      · exact ih [] l hl
    · rw [if_neg hc] at hl
      exact ih (acc ++ [c]) l hl

/-- The parser loop, abstracted to the part the claim is about: walk
the lines with a 1-based index, raise `RuntimeError` (`.error idx`) at
the first line classified `err`, succeed otherwise.  The work done on
matching lines is irrelevant to which lines raise the RuntimeError. -/
def parse_log_run (cl : List Char → LineClass) :
    Nat → List (List Char) → Except Nat Unit
  | _, [] => .ok ()
  | idx, line :: rest =>
    if cl line = .err then .error idx
    else parse_log_run cl (idx + 1) rest

/-- `gdb-sym.parse_log` on a log file with the given content. -/
def parse_log (content : List Char) : Except Nat Unit :=
  parse_log_run classifyLine1 1 (pyFileLines content)

/-- `gdb-sym2.parseLog` on a log file with the given content. -/
def parseLog (content : List Char) : Except Nat Unit :=
  parse_log_run classifyLine2 1 (pyFileLines content)

lemma parse_run_ok_iff (cl : List Char → LineClass) :
    ∀ (lines : List (List Char)) (idx : Nat),
      parse_log_run cl idx lines = .ok () ↔ ∀ l ∈ lines, cl l ≠ .err := by
  intro lines
  induction lines with
  | nil => intro idx; simp [parse_log_run]
  | cons l rest ih =>
    intro idx
    unfold parse_log_run
    by_cases h : cl l = .err
    · simp [h]
    · simp [h, ih (idx + 1)]

lemma parse_run_error_first (cl : List Char → LineClass) :
    ∀ (lines : List (List Char)) (idx k : Nat),
      parse_log_run cl idx lines = .error k →
      idx ≤ k ∧ ∃ line, lines[k - idx]? = some line ∧ cl line = .err
        ∧ ∀ j, j < k - idx → ∀ l, lines[j]? = some l → cl l ≠ .err := by
  intro lines
  induction lines with
  | nil => intro idx k h; cases h
  | cons l rest ih =>
    intro idx k h
    unfold parse_log_run at h
    by_cases hcl : cl l = .err
    · rw [if_pos hcl] at h
      have hk : k = idx := by cases h; rfl
      subst hk
      refine ⟨le_refl _, l, ?_, hcl, ?_⟩
      · simp
      · intro j hj
        omega
    · rw [if_neg hcl] at h
      rcases ih (idx + 1) k h with ⟨hle, line, hget, herr, hfirst⟩
      refine ⟨by omega, line, ?_, herr, ?_⟩
      · have : k - idx = (k - (idx + 1)) + 1 := by omega
        rw [this]
        simpa using hget
      · intro j hj l' hl'
        cases j with
        | zero =>
          simp at hl'
          rw [← hl']
          exact hcl
        | succ j' =>
          have : j' < k - (idx + 1) := by omega
          exact hfirst j' this l' (by simpa using hl')

/-- Counterexample for C8 as stated: a log file whose content is one
empty line.  `parse_log` raises `RuntimeError` at line 1 even though
the line is empty and matches neither pattern, because the iterated
line is `"\n"`, which is truthy; `parseLog` skips it. -/
theorem parse_log_blank_line_counterexample :
    parse_log ['\n'] = .error 1
    ∧ rEntryMatch1 ['\n'] = false ∧ rExitMatch1 ['\n'] = false
    ∧ parseLog ['\n'] = .ok () := ⟨rfl, rfl, rfl, rfl⟩

/-- Claim C8 (amended): `parse_log` raises `RuntimeError` exactly on
lines matching neither of its two patterns — including empty lines,
which carry their trailing newline and are truthy — while `parseLog`
first skips whitespace-only lines and raises exactly on the remaining
lines matching neither of its patterns; both parsers complete over a
fully well-formed log and otherwise raise at the first malformed
line. -/
theorem trace_log_unparsable_spec (content : List Char) :
    (∀ line : List Char, classifyLine1 line = .err ↔
        line ≠ [] ∧ rEntryMatch1 line = false ∧ rExitMatch1 line = false)
    ∧ (∀ line : List Char, classifyLine2 line = .err ↔
        line.all pyIsSpace = false ∧ rEntryCommonMatch line = false
          ∧ rExitCommonMatch line = false)
    ∧ (∀ line ∈ pyFileLines content, line ≠ [])
    ∧ (parse_log content = .ok () ↔
        ∀ line ∈ pyFileLines content, classifyLine1 line ≠ .err)
    ∧ (parseLog content = .ok () ↔
        ∀ line ∈ pyFileLines content, classifyLine2 line ≠ .err)
    ∧ (∀ k, parse_log content = .error k →
        1 ≤ k ∧ ∃ line, (pyFileLines content)[k - 1]? = some line
          ∧ classifyLine1 line = .err
          ∧ ∀ j, j < k - 1 → ∀ l, (pyFileLines content)[j]? = some l →
              classifyLine1 l ≠ .err)
    ∧ (∀ k, parseLog content = .error k →
        1 ≤ k ∧ ∃ line, (pyFileLines content)[k - 1]? = some line
          ∧ classifyLine2 line = .err
          ∧ ∀ j, j < k - 1 → ∀ l, (pyFileLines content)[j]? = some l →
              classifyLine2 l ≠ .err) := by
  refine ⟨?_, ?_, fun l hl => pyFileLinesAux_ne_nil content [] l hl,
    parse_run_ok_iff classifyLine1 (pyFileLines content) 1,
    parse_run_ok_iff classifyLine2 (pyFileLines content) 1, ?_, ?_⟩
  · intro line
    unfold classifyLine1
    by_cases h1 : rEntryMatch1 line = true
    · simp [h1]
    · by_cases h2 : rExitMatch1 line = true
      · simp [h1, h2]
      · by_cases h3 : line = []
        · subst h3
          simp [h1, h2]
        · simp [h1, h2, h3]
  · intro line
    unfold classifyLine2
    by_cases h0 : line.all pyIsSpace = true
    · simp [h0]
    · by_cases h1 : rEntryCommonMatch line = true
      · simp [h0, h1]
      · by_cases h2 : rExitCommonMatch line = true
        · simp [h0, h1, h2]
        · simp [h0, h1, h2]
  · intro k hk
    exact parse_run_error_first classifyLine1 (pyFileLines content) 1 k hk
  · intro k hk
    exact parse_run_error_first classifyLine2 (pyFileLines content) 1 k hk

/-- Witness for C8 (amended), on the one-empty-line log. -/
theorem trace_log_unparsable_spec_witness :
    parse_log ['\n'] = .error 1
    ∧ (1 ≤ 1 ∧ ∃ line, (pyFileLines ['\n'])[1 - 1]? = some line
        ∧ classifyLine1 line = .err
        ∧ ∀ j, j < 1 - 1 → ∀ l, (pyFileLines ['\n'])[j]? = some l →
            classifyLine1 l ≠ .err) :=
  ⟨rfl, (trace_log_unparsable_spec ['\n']).2.2.2.2.2.1 1 rfl⟩
